import Mathlib

/-!
Verification of the acorn-web build tool against its specification.

The Rust sources are shallowly embedded: each Rust function relevant to a
claim is translated into a Lean definition over pure data (association
lists for HashMap, List String for line sequences, Option/Except for
panics and Result).  External effects (the filesystem, the current working
directory, stderr logging) are passed in as explicit parameters.

Conventions:
* HashMap<String, T> is modelled as an association list List (String × T)
  with List.lookup; insertion is modelled by consing the new pair in
  front, which gives the same lookup semantics as HashMap::insert.
* A Rust panic is modelled as Option.none; Result<T, E> as Except E T.
* eprintln! warnings are invisible to the embedding; "warn and continue"
  is modelled as "continue".
-/

namespace AcornWeb

/-! ## String primitives

Rust str operations are modelled at the character-list level (String.data)
with structural recursion, so that every embedded definition evaluates by
kernel reduction.  Each primitive mirrors the corresponding Rust str
method; byte indices in Rust always fall on character boundaries in the
sources, so character counting is equivalent. -/

/-- Rust str::starts_with for a literal marker. -/
def strStarts (s marker : String) : Bool :=
  marker.data.isPrefixOf s.data

/-- Rust str::ends_with for a literal marker. -/
def strEnds (s marker : String) : Bool :=
  marker.data.isSuffixOf s.data

/-- Rust str::strip_prefix, with the unchanged string for a miss (the
sources pair it with unwrap_or / a starts_with guard). -/
def dropPre (marker s : String) : String :=
  if strStarts s marker then ⟨s.data.drop marker.data.length⟩ else s

/-- Rust str::strip_suffix, with the unchanged string for a miss. -/
def dropSuf (marker s : String) : String :=
  if strEnds s marker then
    ⟨s.data.take (s.data.length - marker.data.length)⟩
  else s

/-- Rust str::trim_start_matches(c): remove every leading occurrence of
the character. -/
def trimStartChar (c : Char) (s : String) : String :=
  ⟨s.data.dropWhile (fun d => d == c)⟩

/-- Rust str::trim_end_matches(c): remove every trailing occurrence of the
character. -/
def trimEndChar (c : Char) (s : String) : String :=
  ⟨(s.data.reverse.dropWhile (fun d => d == c)).reverse⟩

/-- Rust str::trim: drop leading and trailing whitespace. -/
def strTrim (s : String) : String :=
  ⟨((s.data.dropWhile Char.isWhitespace).reverse.dropWhile
      Char.isWhitespace).reverse⟩

/-- Rust str::contains for a single character. -/
def strHasChar (s : String) (c : Char) : Bool :=
  s.data.contains c

/-- Whether sub occurs as a contiguous run inside l (Rust str::contains
for a literal). -/
def infixOf (sub : List Char) : List Char → Bool
  | [] => sub.isEmpty
  | c :: cs => sub.isPrefixOf (c :: cs) || infixOf sub cs

/-- Rust str::contains for a literal marker. -/
def strHas (s marker : String) : Bool :=
  infixOf marker.data s.data

/-- Splitting on a character predicate, Rust str::split semantics: the
separators are consumed and empty fragments are kept. -/
def splitPredAux (p : Char → Bool) : List Char → List Char → List (List Char)
  | [], acc => [acc.reverse]
  | c :: cs, acc =>
    if p c then acc.reverse :: splitPredAux p cs []
    else splitPredAux p cs (c :: acc)

/-- Rust str::split with a character-class pattern. -/
def splitPred (p : Char → Bool) (s : String) : List String :=
  (splitPredAux p s.data []).map (fun l => ⟨l⟩)

/-- Rust str::split_whitespace: split on whitespace, discarding empty
fragments. -/
def splitWs (s : String) : List String :=
  (splitPred Char.isWhitespace s).filter (fun t => ¬ t.isEmpty)

/-- The part of s before the first character matching p (all of s when no
character matches); models slicing s[..idx] after str::find(p). -/
def prefixUpTo (p : Char → Bool) (s : String) : String :=
  ⟨s.data.takeWhile (fun c => ¬ p c)⟩

/-- The remainder after prefixUpTo: from the first character matching p
(inclusive) to the end. -/
def suffixFrom (p : Char → Bool) (s : String) : String :=
  ⟨s.data.dropWhile (fun c => ¬ p c)⟩

end AcornWeb

namespace AcornWeb.UrlTransform

/-!
Embedding of src/transform/js_transform/url_transform.rs.

UrlTransformer::enter_import_declaration rewrites the source string of one
static import declaration; url_replacements is the HashMap passed to
UrlTransformer::new.
-/

/-- From UrlTransformer::enter_import_declaration: the source value of one
static import declaration is left alone when it equals "lit.all.mjs";
otherwise it is replaced by the mapped value when the map has the key, and
the pass panics ("URL replacement not found for: ...") when it does not.
The panic is modelled as none. -/
def enterImportDeclaration (urlReplacements : List (String × String))
    (value : String) : Option String :=
  if value = "lit.all.mjs" then
    some value
  else
    match urlReplacements.lookup value with
    | some replacement => some replacement
    | none => none

/-- The traversal applies enterImportDeclaration to every static import
declaration of the module, in source order; a panic aborts the whole
transformation. -/
def transformImports (urlReplacements : List (String × String)) :
    List String → Option (List String)
  | [] => some []
  | s :: rest =>
    match enterImportDeclaration urlReplacements s with
    | none => none
    | some s' =>
      match transformImports urlReplacements rest with
      | none => none
      | some rest' => some (s' :: rest')

/-- Relation between one original import source and its rewritten form, as
claim C1 states it. -/
def importRewriteSpec (urlReplacements : List (String × String))
    (s t : String) : Prop :=
  (s = "lit.all.mjs" ∧ t = s) ∨
    (s ≠ "lit.all.mjs" ∧ urlReplacements.lookup s = some t)

theorem transformImports_forall₂ (repl : List (String × String)) :
    ∀ imports out, transformImports repl imports = some out →
      List.Forall₂ (importRewriteSpec repl) imports out := by
  intro imports
  induction imports with
  | nil =>
    intro out h
    simp only [transformImports, Option.some.injEq] at h
    subst h
    exact List.Forall₂.nil
  | cons s rest ih =>
    intro out h
    simp only [transformImports] at h
    cases henter : enterImportDeclaration repl s with
    | none => rw [henter] at h; exact absurd h (by simp)
    | some s' =>
      rw [henter] at h
      cases hrest : transformImports repl rest with
      | none => rw [hrest] at h; exact absurd h (by simp)
      | some rest' =>
        rw [hrest] at h
        simp only [Option.some.injEq] at h
        subst h
        refine List.Forall₂.cons ?_ (ih rest' hrest)
        unfold enterImportDeclaration at henter
        by_cases hlit : s = "lit.all.mjs"
        · subst hlit
          left
          refine ⟨rfl, ?_⟩
          rw [if_pos rfl] at henter
          injection henter with h
          exact h.symm
        · right
          refine ⟨hlit, ?_⟩
          simp only [if_neg hlit] at henter
          cases hlook : repl.lookup s with
          | none => rw [hlook] at henter; exact absurd henter (by simp)
          | some r =>
            rw [hlook] at henter
            simp only [Option.some.injEq] at henter
            rw [henter]

theorem transformImports_fails (repl : List (String × String)) :
    ∀ imports, (∃ s ∈ imports, s ≠ "lit.all.mjs" ∧ repl.lookup s = none) →
      transformImports repl imports = none := by
  intro imports
  induction imports with
  | nil => rintro ⟨s, hs, _⟩; exact absurd hs (List.not_mem_nil s)
  | cons a rest ih =>
    rintro ⟨s, hs, hne, hlook⟩
    rcases List.mem_cons.mp hs with heq | hmem
    · subst heq
      simp only [transformImports, enterImportDeclaration, if_neg hne, hlook]
    · simp only [transformImports]
      cases henter : enterImportDeclaration repl a with
      | none => rfl
      | some a' => rw [ih ⟨s, hmem, hne, hlook⟩]

/-- C1: For every static import declaration processed by the JS transformer,
a source string equal to the literal "lit.all.mjs" is left unchanged; any
other source that is a key of import_replacements is replaced by the mapped
value; and a source that is neither "lit.all.mjs" nor a key makes the
transformation fail fatally (the Rust code panics with "URL replacement not
found", modelled as none) rather than leaving the import in place. -/
theorem c1_import_rewrite (repl : List (String × String)) (imports : List String) :
    (∀ out, transformImports repl imports = some out →
        List.Forall₂ (importRewriteSpec repl) imports out) ∧
    ((∃ s ∈ imports, s ≠ "lit.all.mjs" ∧ repl.lookup s = none) →
        transformImports repl imports = none) :=
  ⟨fun out h => transformImports_forall₂ repl imports out h,
   fun h => transformImports_fails repl imports h⟩

/-- Witness for C1 at a concrete module: two imports, one of them the
protected "lit.all.mjs", rewrite as claimed, and an unmapped import makes
the transformation fail. -/
theorem c1_import_rewrite_witness :
    List.Forall₂ (importRewriteSpec [("./a.mjs", "../dependencies/a.mjs")])
      ["lit.all.mjs", "./a.mjs"] ["lit.all.mjs", "../dependencies/a.mjs"] ∧
    transformImports [("./a.mjs", "../dependencies/a.mjs")] ["./b.mjs"] = none := by
  constructor
  · exact (c1_import_rewrite [("./a.mjs", "../dependencies/a.mjs")]
      ["lit.all.mjs", "./a.mjs"]).1 ["lit.all.mjs", "../dependencies/a.mjs"] (by rfl)
  · exact (c1_import_rewrite [("./a.mjs", "../dependencies/a.mjs")] ["./b.mjs"]).2
      ⟨"./b.mjs", by simp, by decide, by rfl⟩

end AcornWeb.UrlTransform

namespace AcornWeb.DependencyGraph

/-!
Embedding of src/dependency_graph.rs.

The petgraph Graph<FileNode, ImportEdge> is modelled by the list of node
weights in insertion order (add_node appends and returns the old count as
the NodeIndex) together with the list of edges, and the
HashMap<PathBuf, NodeIndex> path_to_index as an association list.
PathBuf is modelled as String.
-/

/-- FileType from src/dependency_graph.rs (spec name: node kind; JsComponent
is the spec's ComponentRoot). -/
inductive FileType
  | JsComponent
  | JsFile
  | CssFile
  | OpaqueFile
deriving DecidableEq, Repr

/-- TargetLocation from src/dependency_graph.rs (spec name: destination;
CssGlobal is the spec's GlobalStyles). -/
inductive TargetLocation
  | Component (name : String)
  | CssGlobal
  | Asset
  | Dependency
  | Omit
deriving DecidableEq, Repr

/-- FileNode from src/dependency_graph.rs. -/
structure FileNode where
  path : String
  fileType : FileType
  targetLocation : TargetLocation
deriving DecidableEq, Repr

instance : Inhabited FileNode := ⟨⟨"", .OpaqueFile, .Omit⟩⟩

/-- DependencyGraph from src/dependency_graph.rs: node weights in
insertion order, edges (source index, target index, import_statement), and
the path_to_index map. -/
structure Graph where
  nodes : List FileNode
  edges : List (Nat × Nat × String)
  pathToIndex : List (String × Nat)
deriving Repr

/-- DependencyGraph::new. -/
def Graph.new : Graph := ⟨[], [], []⟩

/-- The error cases of DependencyGraphError reachable from add_dependency. -/
inductive GraphError
  | SourceFileNotFound (p : String)
  | TargetFileNotFound (p : String)
deriving DecidableEq, Repr

/-- Node weight at an index; petgraph's index operator. Out-of-range access
panics in Rust and is never reached through the public API; the default
node stands in for it. -/
def Graph.nodeAt (g : Graph) (i : Nat) : FileNode :=
  g.nodes.getD i default

/-- DependencyGraph::add_file: if path is already a key of path_to_index
the existing index is returned and nothing changes; otherwise a new node
is appended (its index is the old node count) and registered. -/
def addFile (g : Graph) (path : String) (fileType : FileType)
    (targetLocation : TargetLocation) : Nat × Graph :=
  match g.pathToIndex.lookup path with
  | some existingIndex => (existingIndex, g)
  | none =>
    let node : FileNode := ⟨path, fileType, targetLocation⟩
    let index := g.nodes.length
    (index,
      { g with
        nodes := g.nodes ++ [node]
        pathToIndex := (path, index) :: g.pathToIndex })

/-- DependencyGraph::add_dependency: both endpoints must be present in
path_to_index; when the source's file_type is not JsComponent and the
target's target_location is Omit, the target is upgraded to Dependency;
an edge carrying the import statement is appended either way. -/
def addDependency (g : Graph) (fromFile toFile : String)
    (importStatement : String) : Except GraphError (Nat × Graph) :=
  match g.pathToIndex.lookup fromFile with
  | none => .error (.SourceFileNotFound fromFile)
  | some fromIdx =>
    match g.pathToIndex.lookup toFile with
    | none => .error (.TargetFileNotFound toFile)
    | some toIdx =>
      let fromFileType := (g.nodeAt fromIdx).fileType
      let toTargetLocationIsOmit := (g.nodeAt toIdx).targetLocation = .Omit
      let nodes' :=
        if fromFileType ≠ .JsComponent ∧ toTargetLocationIsOmit then
          g.nodes.set toIdx { g.nodeAt toIdx with targetLocation := .Dependency }
        else
          g.nodes
      let edgeIdx := g.edges.length
      .ok (edgeIdx,
        { g with
          nodes := nodes'
          edges := g.edges ++ [(fromIdx, toIdx, importStatement)] })

/-- Consistency between path_to_index and the node list, maintained by the
DependencyGraph API: every registered index holds a node with the
registered path, and every node is registered under its path at its own
index. -/
def WF (g : Graph) : Prop :=
  (∀ p i, g.pathToIndex.lookup p = some i →
      (g.nodes.get? i).map FileNode.path = some p) ∧
  (∀ j node, g.nodes.get? j = some node →
      g.pathToIndex.lookup node.path = some j)

theorem wf_new : WF Graph.new := by
  constructor
  · intro p i h
    simp [Graph.new, List.lookup] at h
  · intro j node h
    simp [Graph.new] at h

theorem lookup_cons_self {β : Type} (k : String) (v : β) (l : List (String × β)) :
    List.lookup k ((k, v) :: l) = some v := by
  simp [List.lookup]

theorem lookup_cons_ne {β : Type} {k k' : String} (v : β) (l : List (String × β))
    (h : k ≠ k') : List.lookup k ((k', v) :: l) = List.lookup k l := by
  simp [List.lookup, beq_eq_false_iff_ne.mpr h]

theorem addFile_hit {g : Graph} {path : String} {i : Nat}
    (h : g.pathToIndex.lookup path = some i) (ft : FileType)
    (tl : TargetLocation) : addFile g path ft tl = (i, g) := by
  simp [addFile, h]

theorem addFile_miss {g : Graph} {path : String}
    (h : g.pathToIndex.lookup path = none) (ft : FileType)
    (tl : TargetLocation) :
    addFile g path ft tl =
      (g.nodes.length,
        { g with
          nodes := g.nodes ++ [⟨path, ft, tl⟩]
          pathToIndex := (path, g.nodes.length) :: g.pathToIndex }) := by
  simp [addFile, h]

theorem wf_addFile (g : Graph) (path : String) (ft : FileType)
    (tl : TargetLocation) (hwf : WF g) : WF (addFile g path ft tl).2 := by
  cases hlook : g.pathToIndex.lookup path with
  | some existingIndex => rw [addFile_hit hlook]; exact hwf
  | none =>
    rw [addFile_miss hlook]
    obtain ⟨hwf1, hwf2⟩ := hwf
    constructor
    · intro p i h
      by_cases hp : p = path
      · subst hp
        rw [lookup_cons_self] at h
        obtain rfl : g.nodes.length = i := by simpa using h
        simp [List.get?_concat_length]
      · rw [lookup_cons_ne _ _ hp] at h
        have hmap := hwf1 p i h
        have hlt : i < g.nodes.length := by
          cases hget : g.nodes.get? i with
          | none => rw [hget] at hmap; simp at hmap
          | some n => exact (List.get?_eq_some.mp hget).1
        rw [List.get?_append hlt]
        exact hmap
    · intro j node h
      by_cases hj : j < g.nodes.length
      · rw [List.get?_append hj] at h
        have hold := hwf2 j node h
        have hne : node.path ≠ path := by
          intro hcontra
          rw [hcontra, hlook] at hold
          exact absurd hold (by simp)
        rw [lookup_cons_ne _ _ hne]
        exact hold
      · have hlen : j = g.nodes.length := by
          have hbound : j < (g.nodes ++ [(⟨path, ft, tl⟩ : FileNode)]).length :=
            (List.get?_eq_some.mp h).1
          simp at hbound
          omega
        subst hlen
        rw [List.get?_concat_length] at h
        obtain rfl : (⟨path, ft, tl⟩ : FileNode) = node := by simpa using h
        exact lookup_cons_self path g.nodes.length g.pathToIndex

/-- Any finite sequence of add_file calls, run left to right. -/
def runAddFiles (g : Graph) : List (String × FileType × TargetLocation) → Graph
  | [] => g
  | (p, ft, tl) :: rest => runAddFiles (addFile g p ft tl).2 rest

theorem wf_runAddFiles (calls : List (String × FileType × TargetLocation)) :
    ∀ g : Graph, WF g → WF (runAddFiles g calls) := by
  induction calls with
  | nil => intro g hwf; exact hwf
  | cons c rest ih =>
    intro g hwf
    obtain ⟨p, ft, tl⟩ := c
    exact ih _ (wf_addFile g p ft tl hwf)

theorem wf_paths_nodup (g : Graph) (hwf : WF g) :
    (g.nodes.map FileNode.path).Nodup := by
  rw [List.nodup_iff_injective_get]
  intro i j hij
  obtain ⟨hwf1, hwf2⟩ := hwf
  have hi : i.1 < g.nodes.length := by
    have := i.2; simpa using this
  have hj : j.1 < g.nodes.length := by
    have := j.2; simpa using this
  have hgi : g.nodes.get? i.1 = some (g.nodes.get ⟨i.1, hi⟩) := List.get?_eq_get hi
  have hgj : g.nodes.get? j.1 = some (g.nodes.get ⟨j.1, hj⟩) := List.get?_eq_get hj
  have hli := hwf2 i.1 _ hgi
  have hlj := hwf2 j.1 _ hgj
  have hpath : (g.nodes.get ⟨i.1, hi⟩).path = (g.nodes.get ⟨j.1, hj⟩).path := by
    have h1 : (g.nodes.map FileNode.path).get i = (g.nodes.get ⟨i.1, hi⟩).path := by
      simp [List.get_map]
    have h2 : (g.nodes.map FileNode.path).get j = (g.nodes.get ⟨j.1, hj⟩).path := by
      simp [List.get_map]
    rw [h1, h2] at hij
    exact hij
  rw [hpath] at hli
  rw [hli] at hlj
  exact Fin.ext (by simpa using hlj)

/-- Unfolding of add_dependency when both endpoints are registered. -/
theorem addDependency_ok {g : Graph} {fromFile toFile : String} {i j : Nat}
    (hf : g.pathToIndex.lookup fromFile = some i)
    (ht : g.pathToIndex.lookup toFile = some j) (imp : String) :
    addDependency g fromFile toFile imp =
      .ok (g.edges.length,
        { g with
          nodes :=
            if (g.nodeAt i).fileType ≠ .JsComponent ∧
                (g.nodeAt j).targetLocation = .Omit then
              g.nodes.set j { g.nodeAt j with targetLocation := .Dependency }
            else g.nodes
          edges := g.edges ++ [(i, j, imp)] }) := by
  simp [addDependency, hf, ht]

/-- C2: on a graph in which both endpoints exist, add_dependency succeeds;
when the source node's kind is not ComponentRoot (JsComponent) and the
target node's destination is Omit, the target's destination becomes
Dependency; in every other case no node's destination changes; and no call
ever changes any node's kind (or path, or the node count). -/
theorem c2_add_dependency_rule (g : Graph) (fromFile toFile imp : String)
    (i j : Nat) (hwf : WF g)
    (hf : g.pathToIndex.lookup fromFile = some i)
    (ht : g.pathToIndex.lookup toFile = some j) :
    ∃ g' e, addDependency g fromFile toFile imp = .ok (e, g') ∧
      g'.nodes.length = g.nodes.length ∧
      (∀ k, (g'.nodeAt k).fileType = (g.nodeAt k).fileType ∧
        (g'.nodeAt k).path = (g.nodeAt k).path) ∧
      ((g.nodeAt i).fileType ≠ .JsComponent ∧
          (g.nodeAt j).targetLocation = .Omit →
        (g'.nodeAt j).targetLocation = .Dependency ∧
          ∀ k, k ≠ j →
            (g'.nodeAt k).targetLocation = (g.nodeAt k).targetLocation) ∧
      (¬ ((g.nodeAt i).fileType ≠ .JsComponent ∧
          (g.nodeAt j).targetLocation = .Omit) →
        ∀ k, (g'.nodeAt k).targetLocation = (g.nodeAt k).targetLocation) := by
  have hjlt : j < g.nodes.length := by
    have hmap := hwf.1 toFile j ht
    cases hget : g.nodes.get? j with
    | none => rw [hget] at hmap; simp at hmap
    | some n => exact (List.get?_eq_some.mp hget).1
  refine ⟨_, _, addDependency_ok hf ht imp, ?_, ?_, ?_, ?_⟩
  · simp only [Graph.nodeAt, List.getD]
    split_ifs <;> simp
  · intro k
    simp only [Graph.nodeAt, List.getD]
    split_ifs with hcond
    · by_cases hk : k = j
      · subst hk
        refine ⟨?_, ?_⟩ <;> simp [List.getElem?_set_self hjlt]
      · refine ⟨?_, ?_⟩ <;> simp [List.getElem?_set_ne (Ne.symm hk)]
    · exact ⟨rfl, rfl⟩
  · intro hcond
    simp only [Graph.nodeAt, List.getD, ne_eq] at hcond ⊢
    rw [if_pos hcond]
    constructor
    · simp [List.getElem?_set_self hjlt]
    · intro k hk
      simp [List.getElem?_set_ne (Ne.symm hk)]
  · intro hcond
    simp only [Graph.nodeAt, List.getD, ne_eq] at hcond ⊢
    rw [if_neg hcond]
    intro k
    rfl

/-- Witness for C2: in a two-node graph whose script "x.mjs" (not a
component root) gains an edge to the omitted stylesheet "s.css", the
stylesheet's destination is upgraded to Dependency. -/
theorem c2_add_dependency_rule_witness :
    ∃ g' e,
      addDependency
        (runAddFiles Graph.new
          [("x.mjs", .JsFile, .Dependency), ("s.css", .CssFile, .Omit)])
        "x.mjs" "s.css" "./s.css" = .ok (e, g') ∧
      (g'.nodeAt 1).targetLocation = .Dependency := by
  obtain ⟨g', e, hok, _, _, hpos, _⟩ :=
    c2_add_dependency_rule
      (runAddFiles Graph.new
        [("x.mjs", .JsFile, .Dependency), ("s.css", .CssFile, .Omit)])
      "x.mjs" "s.css" "./s.css" 0 1
      (wf_runAddFiles
        [("x.mjs", .JsFile, .Dependency), ("s.css", .CssFile, .Omit)]
        Graph.new wf_new) rfl rfl
  exact ⟨g', e, hok, (hpos ⟨by decide, by decide⟩).1⟩

/-- C3: add_file is idempotent: whenever path is already present (its
index is registered in path_to_index), add_file returns that existing
index and leaves the graph — in particular the node's kind, destination
and the node count — unchanged, whatever kind and destination are passed;
consequently after any sequence of add_file calls starting from the empty
graph, each filesystem path occurs in at most one node. -/
theorem c3_add_file_idempotent :
    (∀ (g : Graph) (path : String) (i : Nat) (ft' : FileType)
        (tl' : TargetLocation),
      g.pathToIndex.lookup path = some i → addFile g path ft' tl' = (i, g)) ∧
    (∀ calls : List (String × FileType × TargetLocation),
      ((runAddFiles Graph.new calls).nodes.map FileNode.path).Nodup) :=
  ⟨fun _ _ _ ft' tl' h => addFile_hit h ft' tl',
   fun calls => wf_paths_nodup _ (wf_runAddFiles calls Graph.new wf_new)⟩

/-- Witness for C3: re-adding "a.css" with a different kind and
destination returns index 0 and the unchanged graph, and a concrete call
sequence with a repeated path yields pairwise distinct node paths. -/
theorem c3_add_file_idempotent_witness :
    addFile (runAddFiles Graph.new [("a.css", .CssFile, .Omit)])
        "a.css" .JsFile .Asset
      = (0, runAddFiles Graph.new [("a.css", .CssFile, .Omit)]) ∧
    ((runAddFiles Graph.new
        [("a.css", .CssFile, .Omit), ("a.css", .JsFile, .Asset),
         ("b.mjs", .JsComponent, .Component "b")]).nodes.map
        FileNode.path).Nodup := by
  constructor
  · exact c3_add_file_idempotent.1 _ "a.css" 0 .JsFile .Asset rfl
  · exact c3_add_file_idempotent.2 _

end AcornWeb.DependencyGraph

namespace AcornWeb.CssTransform

/-!
Embedding of src/transform/css_transform/url_replacer.rs and
src/transform/css_transform/import_replacer.rs: the per-reference bodies
of UrlReplacerVisitor::visit_url and ImportReplacerVisitor::visit_rule
(the latter restricted to CssRule::Import, the only rule it touches).
Each body either rewrites the visited reference in place or raises
TransformError::UrlNotFound, which aborts the stylesheet visit.
-/

/-- TransformError::UrlNotFound from src/errors.rs (the only variant these
visitors raise themselves). -/
inductive TransformError
  | UrlNotFound (url : String)
deriving DecidableEq, Repr

instance : DecidableEq (Except TransformError String) := fun a b =>
  match a, b with
  | .ok x, .ok y =>
    if h : x = y then .isTrue (by rw [h]) else .isFalse (by simp [h])
  | .error x, .error y =>
    if h : x = y then .isTrue (by rw [h]) else .isFalse (by simp [h])
  | .ok _, .error _ => .isFalse (by simp)
  | .error _, .ok _ => .isFalse (by simp)

/-- UrlReplacerVisitor::visit_url: split the url string at the first '?'
or '#' into base and suffix; on a map hit the url becomes replacement ++
suffix; otherwise data:/http:/https:/protocol-relative urls are left
untouched and anything else is UrlNotFound (carrying the full url string).
Returns the resulting url value. -/
def visitUrl (urlReplacements : List (String × String)) (urlStr : String) :
    Except TransformError String :=
  let base := prefixUpTo (fun c => c == '?' || c == '#') urlStr
  let suffix := suffixFrom (fun c => c == '?' || c == '#') urlStr
  match urlReplacements.lookup base with
  | some replacement => .ok (replacement ++ suffix)
  | none =>
    if !(strStarts base "data:") && !(strStarts base "http://") &&
        !(strStarts base "https://") && !(strStarts base "//") then
      .error (.UrlNotFound urlStr)
    else
      .ok urlStr

/-- ImportReplacerVisitor::visit_rule on an @import rule: the FULL url
string (no suffix split) is the lookup key; on a hit the url becomes the
replacement verbatim; otherwise non-network urls are UrlNotFound. -/
def visitImportRule (urlReplacements : List (String × String))
    (urlStr : String) : Except TransformError String :=
  match urlReplacements.lookup urlStr with
  | some replacement => .ok replacement
  | none =>
    if !(strStarts urlStr "data:") && !(strStarts urlStr "http://") &&
        !(strStarts urlStr "https://") && !(strStarts urlStr "//") then
      .error (.UrlNotFound urlStr)
    else
      .ok urlStr

/-- Counterexample to C7 as stated: under the mapping icon.css ↦
../assets/icon.css, the @import reference "icon.css?v=2" is NOT rewritten
to "../assets/icon.css?v=2" — the @import visitor looks up the full
string "icon.css?v=2", misses, and fails with UrlNotFound. -/
theorem c7_counterexample :
    visitImportRule [("icon.css", "../assets/icon.css")] "icon.css?v=2" =
        .error (.UrlNotFound "icon.css?v=2") ∧
      visitImportRule [("icon.css", "../assets/icon.css")] "icon.css?v=2" ≠
        .ok "../assets/icon.css?v=2" := by
  constructor
  · decide
  · decide

/-- C7 amended: only url(...) references get the '?'/'#' suffix split off
for the lookup, with the original suffix re-appended to the replacement on
a hit; @import rules use the full reference string as the key and
substitute the replacement verbatim, with no suffix handling. -/
theorem c7_suffix_handling (repl : List (String × String)) (url : String) :
    (∀ r, repl.lookup (prefixUpTo (fun c => c == '?' || c == '#') url) =
        some r →
      visitUrl repl url =
        .ok (r ++ suffixFrom (fun c => c == '?' || c == '#') url)) ∧
    (∀ r, repl.lookup url = some r → visitImportRule repl url = .ok r) := by
  constructor
  · intro r h
    simp only [visitUrl, h]
  · intro r h
    simp only [visitImportRule, h]

/-- Witness for the amended C7 at the spec's own example: url(icon.svg?v=2)
under icon.svg ↦ ../assets/icon.svg becomes url(../assets/icon.svg?v=2),
and an exact-match @import is replaced verbatim. -/
theorem c7_suffix_handling_witness :
    visitUrl [("icon.svg", "../assets/icon.svg")] "icon.svg?v=2" =
        .ok "../assets/icon.svg?v=2" ∧
      visitImportRule [("other.css", "../styles/other.css")] "other.css" =
        .ok "../styles/other.css" := by
  constructor
  · exact (c7_suffix_handling [("icon.svg", "../assets/icon.svg")]
      "icon.svg?v=2").1 "../assets/icon.svg" (by decide)
  · exact (c7_suffix_handling [("other.css", "../styles/other.css")]
      "other.css").2 "../styles/other.css" (by decide)

end AcornWeb.CssTransform

namespace AcornWeb.CssDeps

/-!
Embedding of src/dependencies/css.rs.

dependencies_from_string parses a stylesheet and then runs two visitor
passes: UrlVisitor collects every url(...) reference in visit order, then
RuleVisitor collects every @import rule url in visit order.  The embedding
takes the two reference sequences produced by the (external) lightningcss
visit as input lists.
-/

/-- UrlVisitor::add_dependency and RuleVisitor::add_dependency (identical
bodies): skip data:/http:/https:/protocol-relative urls; strip everything
from the first '?' or '#'; push the cleaned url unless already present. -/
def addDependency (deps : List String) (url : String) : List String :=
  if strStarts url "data:" || strStarts url "http://" ||
      strStarts url "https://" || strStarts url "//" then
    deps
  else
    let cleanUrl := prefixUpTo (fun c => c == '?' || c == '#') url
    if deps.contains cleanUrl then deps else deps ++ [cleanUrl]

/-- One visitor pass: fold add_dependency over the references in visit
order, starting from the visitor's empty dependencies vector. -/
def collectDeps (refs : List String) : List String :=
  refs.foldl addDependency []

/-- dependencies_from_string after a successful parse: the UrlVisitor
group comes first, then the RuleVisitor group, each filtered of empty
entries. -/
def dependenciesFromString (urlRefs importRefs : List String) : List String :=
  (collectDeps urlRefs).filter (fun dep => ¬ dep.isEmpty) ++
    (collectDeps importRefs).filter (fun dep => ¬ dep.isEmpty)

theorem addDependency_nodup {deps : List String} (h : deps.Nodup)
    (url : String) : (addDependency deps url).Nodup := by
  simp only [addDependency]
  split_ifs with h1 h2
  · exact h
  · exact h
  · rw [List.nodup_append]
    refine ⟨h, List.nodup_singleton _, ?_⟩
    intro x hx hx2
    simp only [List.mem_singleton] at hx2
    subst hx2
    exact h2 (List.elem_eq_true_of_mem hx)

theorem collectDeps_go_nodup (refs : List String) :
    ∀ acc : List String, acc.Nodup → (refs.foldl addDependency acc).Nodup := by
  induction refs with
  | nil => intro acc h; exact h
  | cons u rest ih =>
    intro acc h
    exact ih _ (addDependency_nodup h u)

theorem collectDeps_go_sub (refs : List String) :
    ∀ acc x, x ∈ refs.foldl addDependency acc →
      x ∈ acc ∨ ∃ u ∈ refs, x = prefixUpTo (fun c => c == '?' || c == '#') u := by
  induction refs with
  | nil => intro acc x h; exact Or.inl h
  | cons u rest ih =>
    intro acc x h
    rcases ih _ x h with hmem | ⟨u', hu', hx⟩
    · simp only [addDependency] at hmem
      split_ifs at hmem with h1 h2
      · exact Or.inl hmem
      · exact Or.inl hmem
      · rcases List.mem_append.mp hmem with h3 | h3
        · exact Or.inl h3
        · right
          exact ⟨u, List.mem_cons_self u rest, by simpa using h3⟩
    · right
      exact ⟨u', List.mem_cons_of_mem u hu', hx⟩

/-- C8: for every pair of reference sequences a stylesheet yields, the
extractor's result is the url(...)-derived group followed by the
@import-derived group; within each group no cleaned (suffix-stripped) url
appears twice, and every entry of a group is the cleaned form of a
reference of its own kind. -/
theorem c8_css_dependency_order (urlRefs importRefs : List String) :
    dependenciesFromString urlRefs importRefs =
        (collectDeps urlRefs).filter (fun dep => ¬ dep.isEmpty) ++
          (collectDeps importRefs).filter (fun dep => ¬ dep.isEmpty) ∧
      ((collectDeps urlRefs).filter (fun dep => ¬ dep.isEmpty)).Nodup ∧
      ((collectDeps importRefs).filter (fun dep => ¬ dep.isEmpty)).Nodup ∧
      (∀ x ∈ (collectDeps urlRefs).filter (fun dep => ¬ dep.isEmpty),
        ∃ u ∈ urlRefs, x = prefixUpTo (fun c => c == '?' || c == '#') u) ∧
      (∀ x ∈ (collectDeps importRefs).filter (fun dep => ¬ dep.isEmpty),
        ∃ u ∈ importRefs, x = prefixUpTo (fun c => c == '?' || c == '#') u) := by
  refine ⟨rfl, ?_, ?_, ?_, ?_⟩
  · exact List.Nodup.filter _ (collectDeps_go_nodup urlRefs [] List.nodup_nil)
  · exact List.Nodup.filter _ (collectDeps_go_nodup importRefs [] List.nodup_nil)
  · intro x hx
    rcases collectDeps_go_sub urlRefs [] x (List.mem_of_mem_filter hx) with
      hmem | hgood
    · exact absurd hmem (List.not_mem_nil x)
    · exact hgood
  · intro x hx
    rcases collectDeps_go_sub importRefs [] x (List.mem_of_mem_filter hx) with
      hmem | hgood
    · exact absurd hmem (List.not_mem_nil x)
    · exact hgood

/-- Witness for C8 at a concrete stylesheet: duplicate and suffixed url()
references are cleaned and deduplicated, a network url is skipped, and the
@import group follows the url() group (a cross-group duplicate remains). -/
theorem c8_css_dependency_order_witness :
    dependenciesFromString
        ["a.css?v=1", "a.css#frag", "http://x/y.css", "b.svg"]
        ["a.css", "c.css", "c.css"] =
      ["a.css", "b.svg"] ++ ["a.css", "c.css"] := by
  have h := (c8_css_dependency_order
    ["a.css?v=1", "a.css#frag", "http://x/y.css", "b.svg"]
    ["a.css", "c.css", "c.css"]).1
  rw [h]
  rfl

end AcornWeb.CssDeps

namespace AcornWeb.JsTransform

/-!
Embedding of the error-path control flow of transform_from_string
(src/transform/js.rs).

The oxc parser and semantic builder are external; the embedding takes the
ParserReturn fields the function destructures (the panicked flag and the
recoverable diagnostics, the latter bound to the unused _parser_errors)
and the semantic builder's error list (already Debug-formatted, as the
code formats each with {:?}).  The four traversal passes and codegen are
embedded separately (UrlTransform etc.); their printed result enters here
as transformedOutput.
-/

/-- The TransformError variants transform_from_string raises itself
(src/errors.rs). -/
inductive TransformError
  | JsPanicParse
  | JsParse (message : String)
deriving DecidableEq, Repr

/-- The fields of oxc ParserReturn that transform_from_string
destructures. -/
structure ParserReturn where
  panicked : Bool
  parserErrors : List String
deriving DecidableEq, Repr

/-- Vec::join(", ") over already-formatted messages. -/
def joinComma : List String → String
  | [] => ""
  | [x] => x
  | x :: rest => x ++ ", " ++ joinComma rest

/-- transform_from_string: the recoverable parser diagnostics are bound to
_parser_errors and never read; only panicked aborts (JsPanicParse).  A
non-empty semantic error list aborts with a message joining ALL formatted
semantic errors.  Otherwise the traversals run and the output is
returned. -/
def transformFromString (parse : ParserReturn) (semanticErrors : List String)
    (transformedOutput : String) : Except TransformError String :=
  if parse.panicked then
    .error .JsPanicParse
  else if ¬ semanticErrors.isEmpty then
    .error (.JsParse ("Semantic errors: " ++ joinComma semanticErrors))
  else
    .ok transformedOutput

/-- Counterexample to C9 as stated: a parse that produced a recoverable
diagnostic without panicking (and without semantic errors) does NOT make
the transformer fail — the module is transformed and returned. -/
theorem c9_counterexample :
    transformFromString ⟨false, ["Unexpected token at 3:1"]⟩ [] "transformed" =
      .ok "transformed" := rfl

/-- C9 amended: transform_from_string ignores recoverable parser
diagnostics entirely; it fails fatally on a parser panic (JsPanicParse),
or when the semantic builder reports errors, with a message joining all of
their formatted texts; in every other case it transforms the module,
whatever recoverable diagnostics the parser produced. -/
theorem c9_diagnostic_handling (parse : ParserReturn)
    (semanticErrors : List String) (out : String) :
    (parse.panicked = true →
      transformFromString parse semanticErrors out = .error .JsPanicParse) ∧
    (parse.panicked = false → semanticErrors ≠ [] →
      transformFromString parse semanticErrors out =
        .error (.JsParse ("Semantic errors: " ++ joinComma semanticErrors))) ∧
    (parse.panicked = false → semanticErrors = [] →
      transformFromString parse semanticErrors out = .ok out) := by
  refine ⟨?_, ?_, ?_⟩
  · intro hp
    simp [transformFromString, hp]
  · intro hp hs
    simp [transformFromString, hp, hs]
  · intro hp hs
    simp [transformFromString, hp, hs]

/-- Witness for the amended C9: a panic aborts; two semantic errors abort
with both messages joined; a recoverable parser diagnostic alone is
ignored and the module is transformed. -/
theorem c9_diagnostic_handling_witness :
    transformFromString ⟨true, []⟩ [] "o" = .error .JsPanicParse ∧
      transformFromString ⟨false, []⟩ ["SyntaxError A", "SyntaxError B"] "o" =
        .error (.JsParse "Semantic errors: SyntaxError A, SyntaxError B") ∧
      transformFromString ⟨false, ["recoverable diagnostic"]⟩ [] "o" =
        .ok "o" := by
  refine ⟨?_, ?_, ?_⟩
  · exact (c9_diagnostic_handling ⟨true, []⟩ [] "o").1 rfl
  · exact (c9_diagnostic_handling ⟨false, []⟩
      ["SyntaxError A", "SyntaxError B"] "o").2.1 rfl (by decide)
  · exact (c9_diagnostic_handling ⟨false, ["recoverable diagnostic"]⟩
      [] "o").2.2 rfl rfl

end AcornWeb.JsTransform

namespace AcornWeb.PathFinder

/-!
Embedding of src/utils/path_finder.rs.

External effects are parameters: the jar resolver's mappings (an
association list), the filesystem canonicalize call (canon, none when the
OS call fails), the make_relative_to_cwd collaborator (relToCwd, a
function of the current working directory), and the on-disk existence
check (fileExists).
-/

/-- PathFinderError from src/utils/path_finder.rs. -/
inductive PathFinderError
  | ChromeMappingNotFound (url : String)
  | InvalidRelativePath (p : String)
  | RelativePathResolutionFailed (fromFile : String) (importStr : String)
  | EmptyImportString
  | UnsupportedImportFormat (s : String)
  | FileNotFound (p : String)
deriving DecidableEq, Repr

/-- JarResolver::is_internal_url (src/utils/jar_resolver.rs). -/
def isInternalUrl (url : String) : Bool :=
  strStarts url "chrome://" || strStarts url "resource://"

/-- PathFinder::is_relative_path. -/
def isRelativePath (s : String) : Bool :=
  strStarts s "./" || strStarts s "../" || strStarts s "/" ||
    (!(strHas s "://") &&
      (strEnds s ".js" || strEnds s ".css" || strEnds s ".ts" ||
        strEnds s ".jsx" || strEnds s ".tsx" || strHasChar s '/'))

/-- Rust Path::parent: the path with its last component dropped; none for
the empty path or the bare root.  (Trailing-separator and root-retention
corner cases of std::path are simplified; no source call site produces
them.) -/
def parentDir (p : String) : Option String :=
  if p = "" ∨ p = "/" then none
  else if strHasChar p '/' then
    some ⟨((p.data.reverse.dropWhile (fun c => ¬ (c == '/'))).dropWhile
      (fun c => c == '/')).reverse⟩
  else some ""

/-- Rust Path::join: an absolute right side replaces the left side. -/
def pathJoin (a b : String) : String :=
  if strStarts b "/" then b
  else if a = "" then b else a ++ "/" ++ b

/-- PathFinder::manually_resolve_path: walk the components, skipping ".",
popping one component for ".." when the stack is non-empty (a leading ".."
is silently dropped here, unlike file_utils::normalize_path). -/
def manuallyResolvePath (p : String) : String :=
  let comps :=
    ((splitPred (fun c => c == '/') p).filter (fun s => ¬ s.isEmpty)).foldl
      (fun stack comp =>
        if comp = "." then stack
        else if comp = ".." then
          if stack.isEmpty then stack else stack.dropLast
        else stack ++ [comp]) []
  match comps with
  | [] => ""
  | c :: rest => rest.foldl (fun a b => a ++ "/" ++ b) c

/-- PathFinder::resolve_relative_path: parent directory of the current
file (failure: RelativePathResolutionFailed), join (a leading '/' makes
the import absolute from the root), canonicalize with the manual
resolution as fallback. -/
def resolveRelativePath (canon : String → Option String)
    (currentFile importStr : String) : Except PathFinderError String :=
  match parentDir currentFile with
  | none => .error (.RelativePathResolutionFailed currentFile importStr)
  | some currentDir =>
    let resolved :=
      if strStarts importStr "/" then importStr
      else pathJoin currentDir importStr
    match canon resolved with
    | some c => .ok c
    | none => .ok (manuallyResolvePath resolved)

/-- PathFinder::get_path: trim the import string; an empty trimmed string
is EmptyImportString; internal urls go through the jar resolver's mappings
(miss: ChromeMappingNotFound); relative-looking paths are resolved against
the current file; anything else is UnsupportedImportFormat.  The resolved
path is made cwd-relative, and a missing file is FileNotFound. -/
def getPath (mappings : List (String × String)) (canon : String → Option String)
    (relToCwd : String → String) (fileExists : String → Bool)
    (currentFile importString : String) : Except PathFinderError String :=
  let importString := strTrim importString
  if importString.data.isEmpty then
    .error .EmptyImportString
  else
    let step :
        Except PathFinderError String :=
      if isInternalUrl importString then
        match mappings.lookup importString with
        | some p => .ok p
        | none => .error (.ChromeMappingNotFound importString)
      else if isRelativePath importString then
        resolveRelativePath canon currentFile importString
      else
        .error (.UnsupportedImportFormat importString)
    match step with
    | .error e => .error e
    | .ok resolvedPath =>
      let relSourcePath := relToCwd resolvedPath
      if ¬ fileExists resolvedPath then
        .error (.FileNotFound resolvedPath)
      else
        .ok relSourcePath

/-- Equality used by C10: trimming is idempotent, so get_path on any
input behaves as on the pre-trimmed input. -/
theorem strTrim_idem (s : String) : strTrim (strTrim s) = strTrim s := by
  unfold strTrim
  congr 1
  show List.rdropWhile Char.isWhitespace
      ((List.rdropWhile Char.isWhitespace
        (s.data.dropWhile Char.isWhitespace)).dropWhile Char.isWhitespace) =
    List.rdropWhile Char.isWhitespace (s.data.dropWhile Char.isWhitespace)
  have hb : (List.rdropWhile Char.isWhitespace
      (s.data.dropWhile Char.isWhitespace)).dropWhile Char.isWhitespace =
      List.rdropWhile Char.isWhitespace
        (s.data.dropWhile Char.isWhitespace) := by
    rw [List.dropWhile_eq_self_iff]
    intro hl
    obtain ⟨t, ht⟩ := List.rdropWhile_prefix Char.isWhitespace
      (s.data.dropWhile Char.isWhitespace)
    have ha : 0 < (s.data.dropWhile Char.isWhitespace).length := by
      rw [← ht]
      simp only [List.length_append]
      omega
    have hget : (List.rdropWhile Char.isWhitespace
        (s.data.dropWhile Char.isWhitespace)).get ⟨0, hl⟩ =
        (s.data.dropWhile Char.isWhitespace).get ⟨0, ha⟩ := by
      have h1 : (List.rdropWhile Char.isWhitespace
          (s.data.dropWhile Char.isWhitespace)).get? 0 =
          (s.data.dropWhile Char.isWhitespace).get? 0 := by
        conv_rhs => rw [← ht]
        exact (List.get?_append hl).symm
      rw [List.get?_eq_get hl, List.get?_eq_get ha] at h1
      exact Option.some.inj h1
    rw [hget]
    exact List.dropWhile_get_zero_not Char.isWhitespace s.data ha
  rw [hb]
  exact List.rdropWhile_idempotent _ _

/-- C10: get_path first trims the import string — its result on any input
equals its result on the trimmed input — and when the trimmed string is
empty it returns EmptyImportString whatever the registry contents, the
filesystem, the cwd collaborator and the current file are (so before any
registry lookup, path joining or existence check could matter). -/
theorem c10_empty_import_first (mappings : List (String × String))
    (canon : String → Option String) (relToCwd : String → String)
    (fileExists : String → Bool) (currentFile s : String) :
    (getPath mappings canon relToCwd fileExists currentFile s =
        getPath mappings canon relToCwd fileExists currentFile (strTrim s)) ∧
    ((strTrim s).data.isEmpty = true →
      getPath mappings canon relToCwd fileExists currentFile s =
        .error .EmptyImportString) := by
  constructor
  · unfold getPath
    rw [strTrim_idem]
  · intro h
    unfold getPath
    simp [h]

/-- Witness for C10: a whitespace-only import string yields
EmptyImportString (with an arbitrary registry, filesystem and current
file), and a padded internal url resolves exactly as its trimmed form. -/
theorem c10_empty_import_first_witness :
    getPath [("chrome://a/b.mjs", "src/p.mjs")] (fun _ => none) id
        (fun _ => true) "x/y.mjs" "   " = .error .EmptyImportString ∧
      getPath [("chrome://a/b.mjs", "src/p.mjs")] (fun _ => none) id
          (fun _ => true) "x/y.mjs" " chrome://a/b.mjs " =
        getPath [("chrome://a/b.mjs", "src/p.mjs")] (fun _ => none) id
          (fun _ => true) "x/y.mjs"
          (strTrim " chrome://a/b.mjs ") := by
  constructor
  · exact (c10_empty_import_first [("chrome://a/b.mjs", "src/p.mjs")]
      (fun _ => none) id (fun _ => true) "x/y.mjs" "   ").2 (by decide)
  · exact (c10_empty_import_first [("chrome://a/b.mjs", "src/p.mjs")]
      (fun _ => none) id (fun _ => true) "x/y.mjs" " chrome://a/b.mjs ").1

end AcornWeb.PathFinder

namespace AcornWeb.CssInline

/-!
Embedding of src/transform/js_transform/css_inline_transform.rs.

CssInlineTransformer::enter_class clears referenced_hrefs, walks the
class's method bodies, and for every html-tagged template literal reached
by process_statement / process_expression runs process_html_template; when
that template matched, add_styles_property runs immediately.  The class is
modelled by the sequence of html-tagged template literals the traversal
reaches, in traversal order; a template is its list of template elements.

The two regex probes on a template element's cooked text —
link_tag_regex.is_match and extract_href_from_link_tag — run in the
external regex crate; the embedding records their outcomes as fields,
together with whether the cooked text is present at all.  new_properties
only ever receives static "styles" property definitions, each here
represented by the raw text of its css-tagged template, so the
iter().any(is-styles) guard in add_styles_property is an emptiness test.
-/

/-- One template element (quasi), reduced to the data the pass reads:
whether value.cooked is present, whether link_tag_regex matches it, and
what extract_href_from_link_tag returns on it. -/
structure TemplateElement where
  hasCooked : Bool
  hasLinkTag : Bool
  extractedHref : Option String
deriving DecidableEq, Repr

/-- The per-class state: referenced_hrefs and the contents of the styles
properties accumulated in new_properties. -/
structure ClassState where
  referencedHrefs : List String
  newProperties : List String
deriving DecidableEq, Repr

/-- The body of process_html_template's loop for one quasi: a quasi with
cooked text whose link tag matches, whose extracted href is a key of
css_replacements, records the href (deduplicated, in insertion order) and
sets found_replacement; every other quasi is skipped by one of the
continue guards. -/
def processQuasi (cssReplacements : List (String × String))
    (st : List String × Bool) (q : TemplateElement) : List String × Bool :=
  if ¬ q.hasCooked then st
  else if ¬ q.hasLinkTag then st
  else
    match q.extractedHref with
    | none => st
    | some href =>
      if (cssReplacements.lookup href).isNone then st
      else
        ((if st.1.contains href then st.1 else st.1 ++ [href]), true)

/-- CssInlineTransformer::process_html_template: the loop over the
template's quasis, starting from the referenced hrefs recorded so far with
found_replacement = false. -/
def processHtmlTemplate (cssReplacements : List (String × String))
    (referencedHrefs : List String) (quasis : List TemplateElement) :
    List String × Bool :=
  quasis.foldl (processQuasi cssReplacements) (referencedHrefs, false)

/-- The combined_css loop of add_styles_property: for each referenced href
in order, a hit in css_replacements appends "/* From <href> */\n<css>\n". -/
def combinedCss (cssReplacements : List (String × String)) :
    List String → String
  | [] => ""
  | href :: rest =>
    match cssReplacements.lookup href with
    | some css =>
      "/* From " ++ href ++ " */\n" ++ css ++ "\n" ++
        combinedCss cssReplacements rest
    | none => combinedCss cssReplacements rest

/-- CssInlineTransformer::add_styles_property: return unchanged when a
styles property was already pushed; otherwise push one styles property
holding combined_css over the referenced hrefs, unless that text is
empty. -/
def addStylesProperty (cssReplacements : List (String × String))
    (st : ClassState) : ClassState :=
  if ¬ st.newProperties.isEmpty then st
  else
    let combined := combinedCss cssReplacements st.referencedHrefs
    if combined.data.isEmpty then st
    else { st with newProperties := st.newProperties ++ [combined] }

/-- The enter_class walk over the html templates the traversal reaches:
each template updates referenced_hrefs; a template that matched triggers
add_styles_property at once. -/
def classFold (cssReplacements : List (String × String)) (st : ClassState) :
    List (List TemplateElement) → ClassState
  | [] => st
  | quasis :: rest =>
    let pr := processHtmlTemplate cssReplacements st.referencedHrefs quasis
    let st' : ClassState := ⟨pr.1, st.newProperties⟩
    classFold cssReplacements
      (if pr.2 then addStylesProperty cssReplacements st' else st') rest

/-- CssInlineTransformer::enter_class on one class: referenced_hrefs
starts cleared, new_properties starts empty; at the end the accumulated
new_properties are appended to the class body. -/
def enterClass (cssReplacements : List (String × String))
    (templates : List (List TemplateElement)) : ClassState :=
  classFold cssReplacements ⟨[], []⟩ templates

/-- The hrefs referenced up to and including the first template that
triggers an injection, and none when no template triggers one. -/
def hrefsUpToFirstTrigger (cssReplacements : List (String × String)) :
    List (List TemplateElement) → List String → Option (List String)
  | [], _ => none
  | quasis :: rest, hrefs =>
    let pr := processHtmlTemplate cssReplacements hrefs quasis
    if pr.2 then some pr.1
    else hrefsUpToFirstTrigger cssReplacements rest pr.1

theorem processQuasi_inv (repl : List (String × String)) (q : TemplateElement)
    (st : List String × Bool)
    (hinv : st.2 = true → ∃ x ∈ st.1, (repl.lookup x).isSome = true) :
    (processQuasi repl st q).2 = true →
      ∃ x ∈ (processQuasi repl st q).1, (repl.lookup x).isSome = true := by
  obtain ⟨hc, hl, he⟩ := q
  cases hc
  · simpa [processQuasi] using hinv
  · cases hl
    · simpa [processQuasi] using hinv
    · cases he with
      | none => simpa [processQuasi] using hinv
      | some href =>
        by_cases h3 : (repl.lookup href).isNone = true
        · simpa [processQuasi, h3] using hinv
        · intro _
          refine ⟨href, ?_, ?_⟩
          · simp only [processQuasi, Bool.not_true, Bool.false_eq_true,
              if_false, h3, if_neg h3]
            by_cases h4 : st.1.contains href = true
            · simp only [if_pos h4]
              exact List.mem_of_elem_eq_true h4
            · simp only [if_neg h4]
              exact List.mem_append_right _ (List.mem_singleton_self href)
          · simpa [Option.isNone_iff_eq_none, Option.isSome_iff_ne_none]
              using h3

theorem processFold_inv (repl : List (String × String))
    (qs : List TemplateElement) :
    ∀ st : List String × Bool,
      (st.2 = true → ∃ x ∈ st.1, (repl.lookup x).isSome = true) →
      ((qs.foldl (processQuasi repl) st).2 = true →
        ∃ x ∈ (qs.foldl (processQuasi repl) st).1,
          (repl.lookup x).isSome = true) := by
  induction qs with
  | nil => intro st hinv; exact hinv
  | cons q rest ih =>
    intro st hinv
    exact ih (processQuasi repl st q) (processQuasi_inv repl q st hinv)

theorem processHtmlTemplate_found (repl : List (String × String))
    (hrefs : List String) (qs : List TemplateElement)
    (h : (processHtmlTemplate repl hrefs qs).2 = true) :
    ∃ x ∈ (processHtmlTemplate repl hrefs qs).1,
      (repl.lookup x).isSome = true :=
  processFold_inv repl qs (hrefs, false) (fun hfalse => by simp at hfalse) h

theorem combinedCss_ne_empty (repl : List (String × String)) :
    ∀ hrefs : List String, (∃ x ∈ hrefs, (repl.lookup x).isSome = true) →
      (combinedCss repl hrefs).data.isEmpty = false := by
  intro hrefs
  induction hrefs with
  | nil =>
    rintro ⟨x, hx, _⟩
    exact absurd hx (List.not_mem_nil x)
  | cons h rest ih =>
    rintro ⟨x, hx, hsome⟩
    rcases List.mem_cons.mp hx with heq | hmem
    · subst heq
      unfold combinedCss
      cases hl : repl.lookup x with
      | none => rw [hl] at hsome; simp at hsome
      | some css => simp
    · unfold combinedCss
      cases hl : repl.lookup h with
      | none => exact ih ⟨x, hmem, hsome⟩
      | some css => simp

theorem classFold_frozen (repl : List (String × String)) :
    ∀ (ts : List (List TemplateElement)) (st : ClassState),
      st.newProperties ≠ [] →
      (classFold repl st ts).newProperties = st.newProperties := by
  intro ts
  induction ts with
  | nil => intro st _; rfl
  | cons q rest ih =>
    intro st hne
    unfold classFold
    dsimp only
    split_ifs with htrig
    · have haddeq : (addStylesProperty repl
          ⟨(processHtmlTemplate repl st.referencedHrefs q).1,
            st.newProperties⟩).newProperties = st.newProperties := by
        unfold addStylesProperty
        rw [if_pos (by simpa using hne)]
      rw [ih _ (by rw [haddeq]; exact hne), haddeq]
    · exact ih _ hne

theorem classFold_characterization (repl : List (String × String)) :
    ∀ (ts : List (List TemplateElement)) (st : ClassState),
      st.newProperties = [] →
      (classFold repl st ts).newProperties =
        (match hrefsUpToFirstTrigger repl ts st.referencedHrefs with
         | none => []
         | some hs => [combinedCss repl hs]) := by
  intro ts
  induction ts with
  | nil => intro st hempty; exact hempty
  | cons q rest ih =>
    intro st hempty
    unfold classFold hrefsUpToFirstTrigger
    dsimp only
    split_ifs with htrig
    · have hwit := processHtmlTemplate_found repl st.referencedHrefs q htrig
      have hadd : addStylesProperty repl
          ⟨(processHtmlTemplate repl st.referencedHrefs q).1,
            st.newProperties⟩ =
          ⟨(processHtmlTemplate repl st.referencedHrefs q).1,
            st.newProperties ++
              [combinedCss repl
                (processHtmlTemplate repl st.referencedHrefs q).1]⟩ := by
        unfold addStylesProperty
        rw [if_neg (by simp [hempty]), if_neg (by
          simp only
          rw [combinedCss_ne_empty repl _ hwit]
          simp)]
      rw [hadd, classFold_frozen repl rest _ (by simp [hempty]), hempty]
      simp
    · exact ih _ hempty

/-- C4 (amended): enter_class appends at most one static styles field per
class; one is appended exactly when some html template in the class
triggers an injection, and its tagged-template content is combined_css
over the hrefs referenced up to and including the FIRST triggering
template — hrefs referenced by templates encountered after that first
injection point are recorded in referenced_hrefs but omitted from the
styles field. -/
theorem c4_styles_once_first_trigger (repl : List (String × String))
    (templates : List (List TemplateElement)) :
    (enterClass repl templates).newProperties =
        (match hrefsUpToFirstTrigger repl templates [] with
         | none => []
         | some hs => [combinedCss repl hs]) ∧
      (enterClass repl templates).newProperties.length ≤ 1 := by
  have hchar := classFold_characterization repl templates ⟨[], []⟩ rfl
  refine ⟨hchar, ?_⟩
  unfold enterClass
  rw [hchar]
  cases hrefsUpToFirstTrigger repl templates [] with
  | none => simp
  | some hs => simp

/-- Counterexample to C4 as stated: with stylesheet_inlines
{a.css ↦ "A", b.css ↦ "B"} and a class whose traversal meets two html
templates, the first referencing a.css and a later one referencing b.css,
the single styles field contains only the a.css block: the b.css href,
referenced after the first injection point, is missing from it (no
"/* From b.css */" comment), contradicting the claimed "for every
referenced href including those after the first injection point". -/
theorem c4_counterexample :
    (enterClass [("a.css", "A"), ("b.css", "B")]
        [[⟨true, true, some "a.css"⟩], [⟨true, true, some "b.css"⟩]]) =
        ⟨["a.css", "b.css"], ["/* From a.css */\nA\n"]⟩ ∧
      strHas "/* From a.css */\nA\n" "/* From b.css */" = false := by
  constructor
  · rfl
  · rfl

end AcornWeb.CssInline

namespace AcornWeb.JarResolver

/-!
Embedding of src/utils/jar_resolver.rs.

Paths are strings with '/' separators.  The filesystem is a parameter
fs : List (String × List String) mapping a full path to the file's lines
(fs::read_to_string composed with str::lines; the sources build manifest
text line by line with a trailing newline per line, so the line view
round-trips).  make_relative_to_cwd depends on the process cwd and enters
as the relToCwd parameter.  HashMap insertion replaces the previous value
of the key; insertAssoc models that on association lists.  HashMap value
iteration order (build_chrome_url) is unspecified in Rust; the embedding
iterates in insertion order.
-/

/-- JarResolverError from src/utils/jar_resolver.rs. -/
inductive JarResolverError
  | InvalidChromeUrl (s : String)
  | NoMappingFound (s : String)
  | UnknownIfdefCondition (s : String)
  | UnmatchedEndif
  | IncludeFileNotFound (s : String)
  | IoError (s : String)
deriving DecidableEq, Repr

/-- ChromeRegistration from src/utils/jar_resolver.rs. -/
structure ChromeRegistration where
  registrationType : String
  packageName : String
  providerName : String
  path : String
  flags : List String
deriving DecidableEq, Repr

/-- HashMap::insert: the new pair replaces any previous binding of the
key. -/
def insertAssoc {β : Type} (k : String) (v : β) (m : List (String × β)) :
    List (String × β) :=
  (k, v) :: m.filter (fun kv => ¬ (kv.1 = k))

/-- Path::parent().unwrap_or(Path::new("")): the path with its last
component removed ("" when there is none).  Trailing-separator corner
cases of std::path are not exercised by the sources. -/
def parentPath (p : String) : String :=
  if strHasChar p '/' then
    ⟨((p.data.reverse.dropWhile (fun c => ¬ (c == '/'))).dropWhile
      (fun c => c == '/')).reverse⟩
  else ""

/-- Path::join: an absolute right side replaces the left side. -/
def joinPath (a b : String) : String :=
  if strStarts b "/" then b
  else if a = "" then b
  else a ++ "/" ++ b

/-- Path::file_name(): the last real component; none for an empty path or
one ending in "..". -/
def fileName (p : String) : Option String :=
  let comps := (splitPred (fun c => c == '/') p).filter
    (fun s => ¬ s.isEmpty ∧ s ≠ ".")
  match comps.getLast? with
  | none => none
  | some last => if last = ".." then none else some last

/-- parse_registration_line: strip the leading %, split on whitespace;
fewer than three parts (or four for non-content types) is silently
skipped; the registration is stored under "type:package". -/
def parseRegistrationLine (line : String)
    (chromeRegistrations : List (String × ChromeRegistration)) :
    List (String × ChromeRegistration) :=
  let line := strTrim (dropPre "%" line)
  let parts := splitWs line
  if parts.length < 3 then chromeRegistrations
  else
    let registrationType := parts.getD 0 ""
    let packageName := parts.getD 1 ""
    let entry? : Option (String × String × List String) :=
      if registrationType = "content" then
        some (String.mk [], parts.getD 2 "", parts.drop 3)
      else if parts.length < 4 then none
      else some (parts.getD 2 "", parts.getD 3 "", parts.drop 4)
    match entry? with
    | none => chromeRegistrations
    | some (providerName, path, flags) =>
      let registration : ChromeRegistration :=
        ⟨registrationType, packageName, providerName, path, flags⟩
      let key := registrationType ++ ":" ++ packageName
      insertAssoc key registration chromeRegistrations

/-- The loop of build_chrome_url over the registrations: the first
registration of the destination's type whose path, with leading percents
and trailing slashes trimmed, is a leading part of the destination yields
chrome://package/type/<destination minus that path>. -/
def buildChromeUrlLoop (destination chromeType : String) :
    List ChromeRegistration → Option String
  | [] => none
  | registration :: rest =>
    if registration.registrationType = chromeType then
      let regPath := trimEndChar '/' (trimStartChar '%' registration.path)
      if strStarts destination regPath then
        let relative := trimStartChar '/' (dropPre regPath destination)
        some ("chrome://" ++ registration.packageName ++ "/" ++ chromeType ++
          "/" ++ relative)
      else buildChromeUrlLoop destination chromeType rest
    else buildChromeUrlLoop destination chromeType rest

/-- build_chrome_url: the destination's first path segment picks the
registration type. -/
def buildChromeUrl (destination : String)
    (chromeRegistrations : List (String × ChromeRegistration)) :
    Option String :=
  let parts := splitPred (fun c => c == '/') destination
  if parts.isEmpty then none
  else
    let chromeType := parts.getD 0 ""
    buildChromeUrlLoop destination chromeType
      (chromeRegistrations.map (fun kv => kv.2))

/-- parse_file_line: split "dest (src)" (src defaults to the destination's
basename in the jar directory; a leading '/' makes it Firefox-root
relative); a destination matching a registration inserts the chrome URL
with the cwd-relative full source path.  A destination without a usable
basename is InvalidChromeUrl.  (When ')' precedes '(' the Rust byte-range
slice panics; the embedding yields the empty source instead — no manifest
line does this.) -/
def parseFileLine (line jarDir firefoxDir : String)
    (relToCwd : String → String) (mappings : List (String × String))
    (chromeRegistrations : List (String × ChromeRegistration)) :
    Except JarResolverError (List (String × String)) :=
  let line := strTrim line
  let cs := line.data
  let hasParens := strHasChar line '(' ∧ strHasChar line ')'
  let start := (cs.takeWhile (fun c => ¬ (c == '('))).length
  let stop := (cs.takeWhile (fun c => ¬ (c == ')'))).length
  let destination :=
    if hasParens then strTrim ⟨cs.take start⟩ else line
  let source : Option String :=
    if hasParens then some (strTrim ⟨(cs.drop (start + 1)).take
      (stop - (start + 1))⟩)
    else none
  let sourcePath? : Except JarResolverError String :=
    match source with
    | some src =>
      if strStarts src "/" then .ok (dropPre "/" src)
      else .ok (joinPath jarDir src)
    | none =>
      match fileName destination with
      | none => .error (.InvalidChromeUrl destination)
      | some filename => .ok (joinPath jarDir filename)
  match sourcePath? with
  | .error e => .error e
  | .ok sourcePath =>
    match buildChromeUrl destination chromeRegistrations with
    | some chromeUrl =>
      let fullSourcePath := joinPath firefoxDir sourcePath
      let relSourcePath := relToCwd fullSourcePath
      .ok (insertAssoc chromeUrl relSourcePath mappings)
    | none => .ok mappings

/-- The per-jar parser state shared by both loop formulations: the
current jar scope and the two accumulated tables (&mut parameters in
Rust). -/
structure ContentState where
  currentJar : Option String
  mappings : List (String × String)
  registrations : List (String × ChromeRegistration)
deriving DecidableEq, Repr

/-- The non-directive part of parse_jar_file's loop body, for a trimmed,
non-empty, non-comment line that the conditionals include: skip *-lines,
open a jar scope on "<name>.jar:", register %-lines, and treat a line
containing '/' inside a jar scope as a file mapping. -/
def handleContentLine (jarDir firefoxDir : String) (relToCwd : String → String)
    (st : ContentState) (line : String) : Except JarResolverError ContentState :=
  if strStarts line "*" then .ok st
  else if strEnds line ".jar:" then
    .ok { st with currentJar := some (dropSuf ":" line) }
  else if strStarts line "%" then
    .ok { st with registrations := parseRegistrationLine line st.registrations }
  else if st.currentJar.isSome ∧ strHasChar line '/' then
    match parseFileLine line jarDir firefoxDir relToCwd st.mappings
        st.registrations with
    | .ok m => .ok { st with mappings := m }
    | .error e => .error e
  else .ok st

/-- The conditional-compilation state of parse_jar_file as the code keeps
it: the pushed ifdef_stack and the running currently_included flag. -/
structure JarLoopState where
  content : ContentState
  ifdefStack : List Bool
  currentlyIncluded : Bool
deriving DecidableEq, Repr

/-- One iteration of parse_jar_file's loop: trim; directives (an unknown
flag name or an unmatched #endif is a hard error; any other #-line and any
empty line is skipped); excluded lines are skipped; everything else goes
through handleContentLine. -/
def parseJarLine (jarDir firefoxDir : String) (relToCwd : String → String)
    (ifdefConfig : List (String × Bool)) (st : JarLoopState)
    (rawLine : String) : Except JarResolverError JarLoopState :=
  let line := strTrim rawLine
  if line.data.isEmpty ∨ strStarts line "#" then
    if strStarts line "#ifdef " ∨ strStarts line "#ifndef " then
      let isIfdef := strStarts line "#ifdef "
      let condition := strTrim
        (if isIfdef then dropPre "#ifdef " line else dropPre "#ifndef " line)
      match ifdefConfig.lookup condition with
      | none => .error (.UnknownIfdefCondition condition)
      | some conditionValue =>
        let shouldInclude := if isIfdef then conditionValue else ! conditionValue
        .ok { st with
          ifdefStack := st.currentlyIncluded :: st.ifdefStack
          currentlyIncluded := st.currentlyIncluded && shouldInclude }
    else if line = "#endif" then
      match st.ifdefStack with
      | [] => .error .UnmatchedEndif
      | top :: rest =>
        .ok { st with currentlyIncluded := top, ifdefStack := rest }
    else .ok st
  else if ¬ st.currentlyIncluded then .ok st
  else
    match handleContentLine jarDir firefoxDir relToCwd st.content line with
    | .ok c => .ok { st with content := c }
    | .error e => .error e

/-- parse_jar_file's loop over the lines.  On an error the loop aborts;
the tables keep every insertion made before the failing line (they are
&mut in Rust), so the state travels alongside the optional error. -/
def parseJarLines (jarDir firefoxDir : String) (relToCwd : String → String)
    (ifdefConfig : List (String × Bool)) :
    JarLoopState → List String → JarLoopState × Option JarResolverError
  | st, [] => (st, none)
  | st, l :: ls =>
    match parseJarLine jarDir firefoxDir relToCwd ifdefConfig st l with
    | .ok st' => parseJarLines jarDir firefoxDir relToCwd ifdefConfig st' ls
    | .error e => (st, some e)

/-- parse_jar_file: jar_dir is the jar path's parent; the loop starts with
no jar scope, an empty ifdef stack and currently_included = true. -/
def parseJarFile (lines : List String) (jarPath firefoxDir : String)
    (relToCwd : String → String) (mappings : List (String × String))
    (registrations : List (String × ChromeRegistration))
    (ifdefConfig : List (String × Bool)) :
    ContentState × Option JarResolverError :=
  let jarDir := parentPath jarPath
  let (st, e) := parseJarLines jarDir firefoxDir relToCwd ifdefConfig
    ⟨⟨none, mappings, registrations⟩, [], true⟩ lines
  (st.content, e)

/-- Conjunction of a condition stack (innermost condition first). -/
def allTrue (conds : List Bool) : Bool := conds.all (fun b => b)

/-- Spec-side state for claim C6: instead of the code's pushed-flag stack
it keeps the list of enclosing conditions' values. -/
structure JarLoopStateSpec where
  content : ContentState
  conds : List Bool
deriving DecidableEq, Repr

/-- Spec formulation of one loop iteration, following the spec's words
for claim C6: a stack of enclosing conditions is maintained and a
non-directive line is processed exactly when every enclosing condition
evaluates true (the conjunction of all enclosing flags). -/
def parseJarLineSpec (jarDir firefoxDir : String) (relToCwd : String → String)
    (ifdefConfig : List (String × Bool)) (st : JarLoopStateSpec)
    (rawLine : String) : Except JarResolverError JarLoopStateSpec :=
  let line := strTrim rawLine
  if line.data.isEmpty ∨ strStarts line "#" then
    if strStarts line "#ifdef " ∨ strStarts line "#ifndef " then
      let isIfdef := strStarts line "#ifdef "
      let condition := strTrim
        (if isIfdef then dropPre "#ifdef " line else dropPre "#ifndef " line)
      match ifdefConfig.lookup condition with
      | none => .error (.UnknownIfdefCondition condition)
      | some conditionValue =>
        let shouldInclude := if isIfdef then conditionValue else ! conditionValue
        .ok { st with conds := shouldInclude :: st.conds }
    else if line = "#endif" then
      match st.conds with
      | [] => .error .UnmatchedEndif
      | _ :: rest => .ok { st with conds := rest }
    else .ok st
  else if ¬ allTrue st.conds then .ok st
  else
    match handleContentLine jarDir firefoxDir relToCwd st.content line with
    | .ok c => .ok { st with content := c }
    | .error e => .error e

/-- Spec-side loop over the lines. -/
def parseJarLinesSpec (jarDir firefoxDir : String) (relToCwd : String → String)
    (ifdefConfig : List (String × Bool)) :
    JarLoopStateSpec → List String →
      JarLoopStateSpec × Option JarResolverError
  | st, [] => (st, none)
  | st, l :: ls =>
    match parseJarLineSpec jarDir firefoxDir relToCwd ifdefConfig st l with
    | .ok st' => parseJarLinesSpec jarDir firefoxDir relToCwd ifdefConfig st' ls
    | .error e => (st, some e)

/-- Spec formulation of parse_jar_file for claim C6. -/
def parseJarFileSpec (lines : List String) (jarPath firefoxDir : String)
    (relToCwd : String → String) (mappings : List (String × String))
    (registrations : List (String × ChromeRegistration))
    (ifdefConfig : List (String × Bool)) :
    ContentState × Option JarResolverError :=
  let jarDir := parentPath jarPath
  let (st, e) := parseJarLinesSpec jarDir firefoxDir relToCwd ifdefConfig
    ⟨⟨none, mappings, registrations⟩, []⟩ lines
  (st.content, e)

/-- The code's ifdef_stack as a function of the enclosing-conditions
list: each pushed entry is the conjunction of the conditions enclosing it. -/
def condStack : List Bool → List Bool
  | [] => []
  | _ :: rest => allTrue rest :: condStack rest

/-- The state correspondence between the two formulations. -/
def ofSpecState (s : JarLoopStateSpec) : JarLoopState :=
  ⟨s.content, condStack s.conds, allTrue s.conds⟩

theorem parseJarLine_equiv (jarDir firefoxDir : String)
    (relToCwd : String → String) (ifdefConfig : List (String × Bool))
    (line : String) (c : ContentState) (conds : List Bool) :
    parseJarLine jarDir firefoxDir relToCwd ifdefConfig
        (ofSpecState ⟨c, conds⟩) line =
      (parseJarLineSpec jarDir firefoxDir relToCwd ifdefConfig
        ⟨c, conds⟩ line).map ofSpecState := by
  unfold parseJarLine parseJarLineSpec ofSpecState
  dsimp only
  split_ifs <;>
    first
    | rfl
    | (cases conds with
       | nil => rfl
       | cons c0 rest => rfl)
    | (split <;> (try rfl) <;>
        simp [Except.map, allTrue, condStack, Bool.and_comm])

/-- The default feature-flag map built at the top of JarResolver::new,
in the code's insertion order. -/
def defaultIfdefConfig : List (String × Bool) :=
  insertAssoc "RELEASE_OR_BETA" true
    (insertAssoc "XP_MACOSX" false
      (insertAssoc "MOZ_FENNEC" false
        (insertAssoc "MOZ_GLEAN_ANDROID" false
          (insertAssoc "ANDROID" false
            (insertAssoc "MOZILLA_OFFICIAL" true [])))))

theorem parseJarLines_equiv (jarDir firefoxDir : String)
    (relToCwd : String → String) (ifdefConfig : List (String × Bool)) :
    ∀ (lines : List String) (c : ContentState) (conds : List Bool),
      parseJarLines jarDir firefoxDir relToCwd ifdefConfig
          (ofSpecState ⟨c, conds⟩) lines =
        (ofSpecState (parseJarLinesSpec jarDir firefoxDir relToCwd ifdefConfig
            ⟨c, conds⟩ lines).1,
          (parseJarLinesSpec jarDir firefoxDir relToCwd ifdefConfig
            ⟨c, conds⟩ lines).2) := by
  intro lines
  induction lines with
  | nil => intro c conds; rfl
  | cons l ls ih =>
    intro c conds
    unfold parseJarLines parseJarLinesSpec
    rw [parseJarLine_equiv]
    cases hstep : parseJarLineSpec jarDir firefoxDir relToCwd ifdefConfig
        ⟨c, conds⟩ l with
    | error e => rfl
    | ok st' =>
      dsimp only [Except.map]
      exact ih st'.content st'.conds

/-- C6: for every jar-manifest line sequence with arbitrarily nested
ifdef/ifndef/endif blocks, parse_jar_file behaves exactly as the
spec-level parser in which a registration or file-mapping line is
processed precisely when EVERY enclosing condition evaluates true under
the flag map (the conjunction of all enclosing flags); in particular,
on a manifest whose mapping sits inside #ifdef ANDROID … #endif, the
default flags (ANDROID=false) keep that mapping out of the URL map while
a mapping outside the block gets in. -/
theorem c6_conditional_inclusion :
    (∀ (lines : List String) (jarPath firefoxDir : String)
        (relToCwd : String → String) (mappings : List (String × String))
        (registrations : List (String × ChromeRegistration))
        (ifdefConfig : List (String × Bool)),
      parseJarFile lines jarPath firefoxDir relToCwd mappings registrations
          ifdefConfig =
        parseJarFileSpec lines jarPath firefoxDir relToCwd mappings
          registrations ifdefConfig) ∧
    ((parseJarFile
        ["browser.jar:",
         "% content browser %content/browser/",
         "#ifdef ANDROID",
         "  content/browser/panel.mjs (panel.mjs)",
         "#endif",
         "  content/browser/other.mjs (other.mjs)"]
        "browser/jar.mn" "ff" id [] [] defaultIfdefConfig).2 = none ∧
      (parseJarFile
        ["browser.jar:",
         "% content browser %content/browser/",
         "#ifdef ANDROID",
         "  content/browser/panel.mjs (panel.mjs)",
         "#endif",
         "  content/browser/other.mjs (other.mjs)"]
        "browser/jar.mn" "ff" id [] []
        defaultIfdefConfig).1.mappings.lookup
          "chrome://browser/content/panel.mjs" = none ∧
      (parseJarFile
        ["browser.jar:",
         "% content browser %content/browser/",
         "#ifdef ANDROID",
         "  content/browser/panel.mjs (panel.mjs)",
         "#endif",
         "  content/browser/other.mjs (other.mjs)"]
        "browser/jar.mn" "ff" id [] []
        defaultIfdefConfig).1.mappings.lookup
          "chrome://browser/content/other.mjs" =
        some "ff/browser/other.mjs") := by
  constructor
  · intro lines jarPath firefoxDir relToCwd mappings registrations ifdefConfig
    unfold parseJarFile parseJarFileSpec
    have h := parseJarLines_equiv (parentPath jarPath) firefoxDir relToCwd
      ifdefConfig lines ⟨none, mappings, registrations⟩ []
    have hinit : (⟨⟨none, mappings, registrations⟩, [], true⟩ : JarLoopState) =
        ofSpecState ⟨⟨none, mappings, registrations⟩, []⟩ := rfl
    rw [hinit]
    dsimp only
    rw [h]
    rfl
  · refine ⟨?_, ?_, ?_⟩ <;> rfl

/-- The loop of process_includes: iterate over the lines; a trimmed line
starting with "#include " splices the referenced file (leading '/' is
Firefox-root relative, otherwise relative to the including file's
directory), recursively processed, followed by the extra blank line the
code's newline push produces; a missing include is a hard error.  The
Rust recursion is unbounded (a cyclic include overflows the stack); the
embedding spends one unit of fuel per processed line and per splice, and
every theorem supplies ample fuel. -/
def processIncludesGo (fs : List (String × List String)) :
    Nat → String → String → List String → Except JarResolverError (List String)
  | 0, _, _, _ => .error (.IoError "include processing fuel exhausted")
  | Nat.succ fuel, jarDir, firefoxDir, lines =>
    match lines with
    | [] => .ok []
    | line :: rest =>
      let t := strTrim line
      if strStarts t "#include " then
        let includePath := strTrim (dropPre "#include " t)
        let fullIncludePath :=
          if strStarts includePath "/" then
            joinPath firefoxDir (dropPre "/" includePath)
          else joinPath jarDir includePath
        match fs.lookup fullIncludePath with
        | none => .error (.IncludeFileNotFound fullIncludePath)
        | some includeLines =>
          match processIncludesGo fs fuel (parentPath fullIncludePath)
              firefoxDir includeLines with
          | .error e => .error e
          | .ok processed =>
            match processIncludesGo fs fuel jarDir firefoxDir rest with
            | .error e => .error e
            | .ok restProcessed => .ok (processed ++ [""] ++ restProcessed)
      else
        match processIncludesGo fs fuel jarDir firefoxDir rest with
        | .error e => .error e
        | .ok restProcessed => .ok (line :: restProcessed)
/-- process_includes: the loop above, with the including file's parent
directory as the base for relative includes. -/
def processIncludes (fs : List (String × List String)) (fuel : Nat)
    (lines : List String) (jarFilePath firefoxDir : String) :
    Except JarResolverError (List String) :=
  processIncludesGo fs fuel (parentPath jarFilePath) firefoxDir lines

/-- The flag map JarResolver::new works with: the defaults, extended
(overwriting) by the caller-supplied map when there is one. -/
def mkIfdefConfig (ifdefConfig : Option (List (String × Bool))) :
    List (String × Bool) :=
  match ifdefConfig with
  | some config =>
    config.foldl (fun m kv => insertAssoc kv.1 kv.2 m) defaultIfdefConfig
  | none => defaultIfdefConfig

/-- The jar.mn loop of JarResolver::new: an absent file warns and is
skipped; a missing include propagates as a hard error (the only ? in the
loop); a parse_jar_file error is printed and swallowed, with the tables
keeping every insertion made before the failure. -/
def newJarLoop (fs : List (String × List String)) (fuel : Nat)
    (relToCwd : String → String) (firefoxDir : String)
    (config : List (String × Bool)) :
    List (String × String) × List (String × ChromeRegistration) →
      List String →
      Except JarResolverError
        (List (String × String) × List (String × ChromeRegistration))
  | acc, [] => .ok acc
  | acc, jarPath :: rest =>
    let fullJarPath := joinPath firefoxDir jarPath
    match fs.lookup fullJarPath with
    | none => newJarLoop fs fuel relToCwd firefoxDir config acc rest
    | some content =>
      match processIncludes fs fuel content fullJarPath firefoxDir with
      | .error e => .error e
      | .ok processedContent =>
        let st := (parseJarFile processedContent jarPath firefoxDir relToCwd
          acc.1 acc.2 config).1
        newJarLoop fs fuel relToCwd firefoxDir config
          (st.mappings, st.registrations) rest

/-- The moz.build loop of JarResolver::new: an absent file warns and is
skipped; parse_mozbuild_file (the CONTENT_ACCESSIBLE_FILES scan, an
external collaborator here: no claim depends on its internals) has its
errors printed and swallowed exactly like the jar parser's. -/
def newMozLoop (fs : List (String × List String))
    (parseMozbuildFn : List String → String → String →
      List (String × String) → List (String × String) × Option JarResolverError)
    (firefoxDir : String) :
    List (String × String) → List String → List (String × String)
  | maps, [] => maps
  | maps, mozbuildPath :: rest =>
    let fullMozbuildPath := joinPath firefoxDir mozbuildPath
    match fs.lookup fullMozbuildPath with
    | none => newMozLoop fs parseMozbuildFn firefoxDir maps rest
    | some content =>
      let maps2 := (parseMozbuildFn content mozbuildPath firefoxDir maps).1
      newMozLoop fs parseMozbuildFn firefoxDir maps2 rest

/-- JarResolver::new: build the flag map, run the jar.mn loop, then the
moz.build loop, and return the resolver's URL map. -/
def new (fs : List (String × List String)) (fuel : Nat)
    (relToCwd : String → String)
    (parseMozbuildFn : List String → String → String →
      List (String × String) → List (String × String) × Option JarResolverError)
    (firefoxDir : String) (jarPaths mozbuildPaths : List String)
    (ifdefConfig : Option (List (String × Bool))) :
    Except JarResolverError (List (String × String)) :=
  let config := mkIfdefConfig ifdefConfig
  match newJarLoop fs fuel relToCwd firefoxDir config ([], []) jarPaths with
  | .error e => .error e
  | .ok (mappings, _registrations) =>
    .ok (newMozLoop fs parseMozbuildFn firefoxDir mappings mozbuildPaths)

/-- Counterexample to C5 as stated: a present jar manifest whose only line
is an #ifdef on a flag absent from the default map makes parse_jar_file
report UnknownIfdefCondition, yet JarResolver::new still returns Ok (the
error is only logged): constructing the reader does NOT return a hard
error. -/
theorem c5_counterexample :
    new [("ff/browser/jar.mn", ["#ifdef NOTAFLAG"])] 10 id
        (fun _ _ _ m => (m, none)) "ff" ["browser/jar.mn"] [] none =
      .ok [] ∧
    (parseJarFile ["#ifdef NOTAFLAG"] "browser/jar.mn" "ff" id [] []
        defaultIfdefConfig).2 =
      some (.UnknownIfdefCondition "NOTAFLAG") := by
  constructor
  · rfl
  · rfl

/-- C5 amended: JarResolver::new skips (with a warning) every listed jar
manifest or build-description file that is absent and succeeds; a present
jar manifest whose parse fails — unknown #ifdef flag, unmatched #endif,
or any other parse_jar_file error — is logged and swallowed, new still
returning Ok with whatever mappings had been inserted before the failure;
only a missing #include propagates as a hard error out of new. -/
theorem c5_new_error_policy :
    (∀ (fs : List (String × List String)) (fuel : Nat)
        (relToCwd : String → String)
        (parseMozbuildFn : List String → String → String →
          List (String × String) →
            List (String × String) × Option JarResolverError)
        (firefoxDir : String) (jarPaths mozbuildPaths : List String)
        (ifdefConfig : Option (List (String × Bool))),
      (∀ p ∈ jarPaths, fs.lookup (joinPath firefoxDir p) = none) →
      (∀ p ∈ mozbuildPaths, fs.lookup (joinPath firefoxDir p) = none) →
      new fs fuel relToCwd parseMozbuildFn firefoxDir jarPaths mozbuildPaths
        ifdefConfig = .ok []) ∧
    (∀ (fs : List (String × List String)) (fuel : Nat)
        (relToCwd : String → String)
        (parseMozbuildFn : List String → String → String →
          List (String × String) →
            List (String × String) × Option JarResolverError)
        (firefoxDir jarPath : String) (content processed : List String)
        (ifdefConfig : Option (List (String × Bool))),
      fs.lookup (joinPath firefoxDir jarPath) = some content →
      processIncludes fs fuel content (joinPath firefoxDir jarPath)
        firefoxDir = .ok processed →
      new fs fuel relToCwd parseMozbuildFn firefoxDir [jarPath] []
          ifdefConfig =
        .ok (parseJarFile processed jarPath firefoxDir relToCwd [] []
          (mkIfdefConfig ifdefConfig)).1.mappings) ∧
    (∀ (fs : List (String × List String)) (fuel : Nat)
        (relToCwd : String → String)
        (parseMozbuildFn : List String → String → String →
          List (String × String) →
            List (String × String) × Option JarResolverError)
        (firefoxDir jarPath : String) (content : List String)
        (e : JarResolverError) (mozbuildPaths : List String)
        (ifdefConfig : Option (List (String × Bool))),
      fs.lookup (joinPath firefoxDir jarPath) = some content →
      processIncludes fs fuel content (joinPath firefoxDir jarPath)
        firefoxDir = .error e →
      new fs fuel relToCwd parseMozbuildFn firefoxDir [jarPath]
        mozbuildPaths ifdefConfig = .error e) := by
  refine ⟨?_, ?_, ?_⟩
  · intro fs fuel relToCwd parseMozbuildFn firefoxDir jarPaths mozbuildPaths
      ifdefConfig hjar hmoz
    have hloop : ∀ (paths : List String)
        (acc : List (String × String) × List (String × ChromeRegistration)),
        (∀ p ∈ paths, fs.lookup (joinPath firefoxDir p) = none) →
        newJarLoop fs fuel relToCwd firefoxDir (mkIfdefConfig ifdefConfig)
          acc paths = .ok acc := by
      intro paths
      induction paths with
      | nil => intro acc _; rfl
      | cons p rest ih =>
        intro acc hnone
        unfold newJarLoop
        dsimp only
        rw [hnone p (List.mem_cons_self p rest)]
        exact ih acc (fun q hq => hnone q (List.mem_cons_of_mem p hq))
    have hmozloop : ∀ (paths : List String) (maps : List (String × String)),
        (∀ p ∈ paths, fs.lookup (joinPath firefoxDir p) = none) →
        newMozLoop fs parseMozbuildFn firefoxDir maps paths = maps := by
      intro paths
      induction paths with
      | nil => intro maps _; rfl
      | cons p rest ih =>
        intro maps hnone
        unfold newMozLoop
        dsimp only
        rw [hnone p (List.mem_cons_self p rest)]
        exact ih maps (fun q hq => hnone q (List.mem_cons_of_mem p hq))
    unfold new
    dsimp only
    rw [hloop jarPaths ([], []) hjar]
    dsimp only
    rw [hmozloop mozbuildPaths [] hmoz]
  · intro fs fuel relToCwd parseMozbuildFn firefoxDir jarPath content
      processed ifdefConfig hlook hproc
    unfold new newJarLoop
    dsimp only
    rw [hlook]
    dsimp only
    rw [hproc]
    rfl
  · intro fs fuel relToCwd parseMozbuildFn firefoxDir jarPath content e
      mozbuildPaths ifdefConfig hlook hproc
    unfold new newJarLoop
    dsimp only
    rw [hlook]
    dsimp only
    rw [hproc]

/-- Witness for the amended C5 at concrete inputs: a wholly absent jar
manifest and build description give Ok with an empty map; a manifest
whose single line names an unknown flag is swallowed (Ok, empty map, even
though parse_jar_file reports UnknownIfdefCondition); a manifest whose
include target is missing is a hard error from new. -/
theorem c5_new_error_policy_witness :
    new [] 10 id (fun _ _ _ m => (m, none)) "ff" ["browser/jar.mn"]
        ["browser/moz.build"] none = .ok [] ∧
      new [("ff/browser/jar.mn", ["#ifdef NOTAFLAG"])] 10 id
          (fun _ _ _ m => (m, none)) "ff" ["browser/jar.mn"] [] none =
        .ok (parseJarFile ["#ifdef NOTAFLAG"] "browser/jar.mn" "ff" id [] []
          (mkIfdefConfig none)).1.mappings ∧
      new [("ff/browser/jar.mn", ["#include missing.inc"])] 10 id
          (fun _ _ _ m => (m, none)) "ff" ["browser/jar.mn"] [] none =
        .error (.IncludeFileNotFound "ff/browser/missing.inc") := by
  refine ⟨?_, ?_, ?_⟩
  · exact c5_new_error_policy.1 [] 10 id (fun _ _ _ m => (m, none)) "ff"
      ["browser/jar.mn"] ["browser/moz.build"] none
      (by intro p hp; rfl) (by intro p hp; rfl)
  · exact c5_new_error_policy.2.1 [("ff/browser/jar.mn", ["#ifdef NOTAFLAG"])]
      10 id (fun _ _ _ m => (m, none)) "ff" "browser/jar.mn"
      ["#ifdef NOTAFLAG"] ["#ifdef NOTAFLAG"] none rfl rfl
  · exact c5_new_error_policy.2.2
      [("ff/browser/jar.mn", ["#include missing.inc"])] 10 id
      (fun _ _ _ m => (m, none)) "ff" "browser/jar.mn"
      ["#include missing.inc"] (.IncludeFileNotFound "ff/browser/missing.inc")
      [] none rfl rfl

end AcornWeb.JarResolver
